import Mathlib

/-!
# Configuration resolution of nri-prometheus (`cmd/nri-prometheus/config.go`)

A shallow embedding of `loadConfig`, `setViperDefaults`, `bindViperEnv`,
`determineMetricAPIURL` and `setHotReload`, followed by theorems about them.

Go strings are embedded as `String` (lists of `Char`); a Go string holding
bytes that are not valid UTF-8 is outside this model (the regular expression
below would read such a byte as U+FFFD, which none of its classes accept).
-/

namespace NriPrometheus

/-! ## `regexp`: the fragment used by `regionLicenseRegex` -/

/-- Regular expression syntax tree (the operators of Go's `regexp/syntax` that the
pattern of `regionLicenseRegex` needs, after simplification of counted repetition). -/
inductive Regex where
  /-- Matches the empty string. -/
  | emptyMatch : Regex
  /-- The assertion `^` without the multi-line flag: beginning of the text. -/
  | beginText : Regex
  /-- A character class made of one range, such as `[a-z]`. -/
  | charRange (lo hi : Char) : Regex
  /-- A literal character. -/
  | lit (c : Char) : Regex
  /-- Concatenation. -/
  | cat (a b : Regex) : Regex
  /-- Greedy `r?`: prefers one occurrence of `r` to none. -/
  | quest (r : Regex) : Regex
  /-- Capturing group number `idx`. -/
  | capture (idx : Nat) (r : Regex) : Regex
  deriving Repr, DecidableEq

namespace Regex

/-- Nested optional copies: `r(r(r)?)?` with `n` copies of `r`, as built by
`regexp/syntax.Simplify` for the optional part of `r{min,max}`. -/
def nestedQuest (r : Regex) : Nat → Regex
  | 0 => emptyMatch
  | 1 => quest r
  | n + 1 => quest (cat r (nestedQuest r n))

/-- Required copies: `r r ... r` (`n` times) followed by `tail`. -/
def copies (r : Regex) : Nat → Regex → Regex
  | 0, tail => tail
  | n + 1, tail => cat r (copies r n tail)

/-- The counted repetition `r{min,max}` (greedy), simplified as Go does:
`min` copies of `r` followed by `max - min` nested optional copies. -/
def repeatRange (r : Regex) (min max : Nat) : Regex :=
  copies r min (nestedQuest r (max - min))

/-- Number of capturing groups (`NumSubexp`): the largest group index. -/
def numSubexp : Regex → Nat
  | emptyMatch => 0
  | beginText => 0
  | charRange _ _ => 0
  | lit _ => 0
  | cat a b => max (numSubexp a) (numSubexp b)
  | quest r => numSubexp r
  | capture idx r => max idx (numSubexp r)

end Regex

/-- Capture registers: group index, start offset, end offset; the most recent
entry of a group is the first one found. -/
abbrev Caps := List (Nat × Nat × Nat)

/-- Whether the rune `c` lies in the inclusive range `lo`-`hi` (runes compare by
code point). -/
def inRange (lo hi c : Char) : Bool :=
  decide (lo.toNat ≤ c.toNat) && decide (c.toNat ≤ hi.toNat)

/-- Backtracking matcher with leftmost-first (Perl-like) preference, which is the
match Go's `regexp` reports. `pos` is the offset of `rest` in the text, `k` is
the continuation that matches what follows; the result is the end offset of the
overall match together with the capture registers. -/
def Regex.run : Regex → Nat → List Char → Caps →
    (Nat → List Char → Caps → Option (Nat × Caps)) → Option (Nat × Caps)
  | .emptyMatch, pos, rest, caps, k => k pos rest caps
  | .beginText, pos, rest, caps, k => if pos = 0 then k pos rest caps else none
  | .charRange lo hi, pos, rest, caps, k =>
    match rest with
    | [] => none
    | c :: tl => if inRange lo hi c then k (pos + 1) tl caps else none
  | .lit x, pos, rest, caps, k =>
    match rest with
    | [] => none
    | c :: tl => if c = x then k (pos + 1) tl caps else none
  | .cat a b, pos, rest, caps, k =>
    a.run pos rest caps (fun pos1 rest1 caps1 => b.run pos1 rest1 caps1 k)
  | .quest r, pos, rest, caps, k =>
    match r.run pos rest caps k with
    | some res => some res
    | none => k pos rest caps
  | .capture idx r, pos, rest, caps, k =>
    r.run pos rest caps (fun pos1 rest1 caps1 => k pos1 rest1 ((idx, pos, pos1) :: caps1))

/-- Final continuation: the pattern is matched, report the end offset. -/
def acceptMatch (pos : Nat) (_rest : List Char) (caps : Caps) : Option (Nat × Caps) :=
  some (pos, caps)

/-- Unanchored search: try the start offsets from left to right and keep the first
that matches. Returns start offset, end offset and capture registers. -/
def searchFrom (re : Regex) : Nat → List Char → Option (Nat × Nat × Caps)
  | pos, [] =>
    match re.run pos [] [] acceptMatch with
    | some (e, caps) => some (pos, e, caps)
    | none => none
  | pos, c :: tl =>
    match re.run pos (c :: tl) [] acceptMatch with
    | some (e, caps) => some (pos, e, caps)
    | none => searchFrom re (pos + 1) tl

/-- The text between two offsets (`s[start:stop]`). -/
def slice (text : List Char) (start stop : Nat) : List Char :=
  (text.drop start).take (stop - start)

/-- Text of capture group `idx`, the empty string when the group did not take part
in the match. -/
def groupText (text : List Char) (caps : Caps) (idx : Nat) : String :=
  match caps.find? (fun e => e.1 == idx) with
  | some (_, s, e) => String.mk (slice text s e)
  | none => ""

/-- Method `(*Regexp).FindStringSubmatch`: `nil` (the empty list) when there is no match,
otherwise the text of the leftmost match followed by the text of each group. -/
def findStringSubmatch (re : Regex) (s : String) : List String :=
  match searchFrom re 0 s.data with
  | none => []
  | some (b, e, caps) =>
    String.mk (slice s.data b e) ::
      (List.range re.numSubexp).map (fun i => groupText s.data caps (i + 1))

/-! ## `fmt.Sprintf` for formats whose only verb is `%s` -/

/-- Rendering of the arguments left over when the format has no verb for them:
the inside of `%!(EXTRA string=a, string=b)`. -/
def extraArgs : List String → List Char
  | [] => []
  | [a] => "string=".data ++ a.data
  | a :: more => "string=".data ++ a.data ++ ", ".data ++ extraArgs more

/-- Walk over the format. `%s` writes the next argument (or `%!s(MISSING)`), `%%`
writes a percent sign, any other character is copied. -/
def sprintfChars : List Char → List String → List Char
  | [], [] => []
  | [], a :: more => "%!(EXTRA ".data ++ extraArgs (a :: more) ++ [')']
  | '%' :: 's' :: fmtRest, [] => "%!s(MISSING)".data ++ sprintfChars fmtRest []
  | '%' :: 's' :: fmtRest, a :: more => a.data ++ sprintfChars fmtRest more
  | '%' :: '%' :: fmtRest, args => '%' :: sprintfChars fmtRest args
  | c :: fmtRest, args => c :: sprintfChars fmtRest args

/-- Function `fmt.Sprintf` with string arguments. -/
def fmtSprintf (format : String) (args : List String) : String :=
  String.mk (sprintfChars format.data args)

/-! ## Region resolver -/

/-- The pattern `^([a-z]{2,3})[0-9]{2}x{1,2}`. -/
def regionLicenseRegex : Regex :=
  .cat .beginText
    (.cat (.capture 1 (Regex.repeatRange (.charRange 'a' 'z') 2 3))
      (.cat (Regex.repeatRange (.charRange '0' '9') 2 2)
        (Regex.repeatRange (.lit 'x') 1 2)))

/-- Template of the region endpoint. -/
def metricAPIRegionURL : String := "https://metric-api.%s.newrelic.com/metric/v1/infra"

/-- The default endpoint (the US datacenter). -/
def defaultMetricAPIURL : String := "https://metric-api.newrelic.com/metric/v1/infra"

/-- Function `determineMetricAPIURL` determines the Metric API URL based on the license key. -/
def determineMetricAPIURL (license : String) : String :=
  let m := findStringSubmatch regionLicenseRegex license
  if m.length > 1 then
    fmtSprintf metricAPIRegionURL [m.getD 1 ""]
  else
    defaultMetricAPIURL

/-! ## Vocabulary of the statements on the region resolver -/

/-- ASCII lowercase letter, the class `[a-z]`. -/
def isLowerAZ (c : Char) : Bool := inRange 'a' 'z' c

/-- ASCII digit, the class `[0-9]`. -/
def isDigit09 (c : Char) : Bool := inRange '0' '9' c

/-- The region URL for a region code, written out. -/
def regionURL (r : List Char) : String :=
  "https://metric-api." ++ String.mk r ++ ".newrelic.com/metric/v1/infra"

/-- Prefix test equivalent to the pattern: the region code when the text starts with
two or three lowercase letters, two digits and an `x`. -/
def regionOf : List Char → Option (List Char)
  | a :: b :: c :: d :: e :: rest =>
    if isLowerAZ a && isLowerAZ b then
      if isLowerAZ c then
        match rest with
        | f :: _ => if isDigit09 d && isDigit09 e && f == 'x' then some [a, b, c] else none
        | [] => none
      else if isDigit09 c && isDigit09 d && e == 'x' then some [a, b] else none
    else none
  | _ => none

/-- What a valid region prefix is: two or three lowercase letters `r`, two digits and
an `x` at the start of `l`. -/
def StartsWithRegion (l r : List Char) : Prop :=
  (r.length = 2 ∨ r.length = 3) ∧ (∀ c ∈ r, isLowerAZ c = true) ∧
    ∃ d1 d2 rest, isDigit09 d1 = true ∧ isDigit09 d2 = true ∧ l = r ++ d1 :: d2 :: 'x' :: rest

/-! ## Errors, arguments and the scraper configuration -/

/-- Go `error` values met by `loadConfig`. -/
inductive GoError where
  /-- An error of a collaborator, identified by its message. -/
  | base (msg : String) : GoError
  /-- Viper's `ConfigFileNotFoundError`: no file `name` in any of `locations`. -/
  | configFileNotFound (name : String) (locations : List String) : GoError
  /-- The value built by `errors.Wrap(cause, msg)`. -/
  | wrap (cause : GoError) (msg : String) : GoError
  deriving Repr, DecidableEq

/-- Function `errors.Wrap` of `github.com/pkg/errors`, for a non-nil `err` (the only use in
`loadConfig`). -/
def errorsWrap (err : GoError) (message : String) : GoError :=
  .wrap err message

/-- Type `ArgumentList`: the available arguments. -/
structure ArgumentList where
  /-- Path to the config file. -/
  ConfigPath : String := ""
  /-- Deprecated; `ConfigPath` takes precedence if both are set. -/
  Configfile : String := ""
  /-- Host ID replacing the target name if localhost. -/
  NriHostID : String := ""
  deriving Repr, DecidableEq

/-- Modelled from the spec: `scraper.Config` is declared in `internal/cmd/scraper`,
outside the sources at hand. These are the fields that `loadConfig` reads or
writes (emitter list, standalone mode, endpoint URL, license key, hot reload,
host id); `loadConfig` touches no other field. -/
structure Config where
  /-- Emitter list. -/
  Emitters : List String := []
  /-- Standalone mode. -/
  Standalone : Bool := false
  /-- Ingestion endpoint URL. -/
  MetricAPIURL : String := ""
  /-- License credential (a string type in Go). -/
  LicenseKey : String := ""
  /-- Whether the config file is watched for changes. -/
  HotReload : Bool := false
  /-- Host id. -/
  HostID : String := ""
  deriving Repr, DecidableEq

/-- A field of a struct type as `bindViperEnv` sees it through `reflect`: the result
of `Tag.Lookup("mapstructure")` (`none` when the lookup is not ok) and whether the
field's kind is `reflect.Struct` (then with its own fields) or anything else. A field
of struct kind also says whether it is exported: `Value.Interface` panics on a value
obtained from an unexported field. On a field of another kind `bindViperEnv` calls
only `Field`, `Kind` and `Tag.Lookup`, which accept unexported fields. -/
inductive Field where
  /-- A field whose kind is not `reflect.Struct`. -/
  | leaf (tag : Option String) : Field
  /-- A field whose kind is `reflect.Struct`, with the fields of that struct. -/
  | record (tag : Option String) (exported : Bool) (fields : List Field) : Field
  deriving Repr

mutual
/-- Whether the field `f` lets `bindViperEnv` run to its end: `f` is not an unexported
record with a canonical name, and holds none outside of the records that lack a
canonical name. -/
def recordsExportedField : Field → Bool
  | .leaf _ => true
  | .record none _ _ => true
  | .record (some _) exported fields => exported && recordsExported fields
/-- Whether every record field that has a canonical name, and is not inside a record
lacking one, is an exported field. -/
def recordsExported : List Field → Bool
  | [] => true
  | f :: more => recordsExportedField f && recordsExported more
end

/-! ## The Viper registry -/

/-- Values stored in the registry. -/
inductive Value where
  /-- A boolean. -/
  | bool (b : Bool) : Value
  /-- A string. -/
  | str (s : String) : Value
  /-- An integer. -/
  | int (n : Int) : Value
  /-- A `time.Duration`, in nanoseconds. -/
  | duration (ns : Int) : Value
  /-- A `[]float64` whose elements are whole numbers. -/
  | float64s (xs : List Int) : Value
  deriving Repr, DecidableEq

/-- Key-value settings, such as the content of a parsed file. -/
abbrev Settings := List (String × Value)

/-- State of a `*viper.Viper` as far as this program drives it. -/
structure Viper where
  /-- Set by `SetConfigType`. -/
  configType : String := ""
  /-- Set by `SetConfigName`; `viper.New` starts with `config`. -/
  configName : String := "config"
  /-- Directories given to `AddConfigPath`, in call order (Viper makes each absolute). -/
  configPaths : List String := []
  /-- Defaults registered by `SetDefault`. -/
  defaults : Settings := []
  /-- Keys given to `BindEnv`, one entry per call, in call order. -/
  env : List String := []
  /-- Settings of the file read by the last successful `ReadInConfig`. -/
  config : Settings := []
  /-- Whether `WatchConfig` was called. -/
  watching : Bool := false
  /-- Whether the change handler of `setHotReload` is installed by `OnConfigChange`. -/
  onConfigChange : Bool := false
  deriving Repr, DecidableEq

/-- Function `viper.New()`. -/
def viperNew : Viper := {}

/-- Method `SetConfigType`. -/
def Viper.SetConfigType (v : Viper) (t : String) : Viper := { v with configType := t }

/-- Method `SetConfigName`. -/
def Viper.SetConfigName (v : Viper) (name : String) : Viper := { v with configName := name }

/-- Method `AddConfigPath`: one more directory to search, after those already added. -/
def Viper.AddConfigPath (v : Viper) (dir : String) : Viper :=
  { v with configPaths := v.configPaths ++ [dir] }

/-- Method `SetDefault`: the default of `key` becomes `value`. -/
def Viper.SetDefault (v : Viper) (key : String) (value : Value) : Viper :=
  { v with defaults := v.defaults.filter (fun kv => kv.1 != key) ++ [(key, value)] }

/-- Method `BindEnv` with a single key. -/
def Viper.BindEnv (v : Viper) (key : String) : Viper := { v with env := v.env ++ [key] }

/-- Method `WatchConfig`: start watching the config file. -/
def Viper.WatchConfig (v : Viper) : Viper := { v with watching := true }

/-- Method `OnConfigChange`: install the handler run on each change. -/
def Viper.OnConfigChange (v : Viper) : Viper := { v with onConfigChange := true }

/-- Everything `loadConfig` obtains from its collaborators. -/
structure World where
  /-- Outcome of `args.SetupArgs(&c)` on the zero `ArgumentList`. -/
  setupArgs : Except GoError ArgumentList
  /-- Function `filepath.Dir`. -/
  filepathDir : String → String
  /-- Function `filepath.Base`. -/
  filepathBase : String → String
  /-- Value of `fmt.Sprint(integration.BoundedHarvesterDefaultHarvestPeriod)`. -/
  harvestPeriod : String
  /-- Value of `fmt.Sprint(integration.BoundedHarvesterDefaultMinReportInterval)`. -/
  minReportInterval : String
  /-- Value of `fmt.Sprint(integration.BoundedHarvesterDefaultMetricsCap)`. -/
  metricsCap : String
  /-- The text of the config file called `name`, of type `configType`, that Viper finds
  in directory `dir`, if there is one. -/
  findFile : (dir name configType : String) → Option String
  /-- Parsing of the file text into settings. -/
  parseConfig : String → Except GoError Settings
  /-- Fields of the struct type `scraper.Config`, as `reflect` gives them. -/
  schema : List Field
  /-- Modelled from the spec: the declaration of `scraper.Config` is outside the sources
  at hand. The spec gives the Environment Binder no failure on the target schema (its
  step of the Config Assembler has no error, and it "returns no value"), so the record
  fields of `scraper.Config` that carry a canonical name are exported fields. -/
  schemaExported : recordsExported schema = true
  /-- Outcome of `cfg.Unmarshal(&scraperCfg)` on the zero `scraper.Config`: the decoding
  of defaults, file settings and bound environment variables. -/
  unmarshal : Viper → Except GoError Config

/-- Method `ReadInConfig`: search the config paths in order, read and parse the first file
found. The registry changes only when all of this succeeds. -/
def ReadInConfig (w : World) (v : Viper) : Except GoError Viper :=
  match v.configPaths.findSome? (fun dir => w.findFile dir v.configName v.configType) with
  | none => .error (.configFileNotFound v.configName v.configPaths)
  | some text =>
    match w.parseConfig text with
    | .error err => .error err
    | .ok settings => .ok { v with config := settings }

/-- Function `strings.Join`. -/
def stringsJoin : List String → String → String
  | [], _ => ""
  | [a], _ => a
  | a :: b :: more, sep => a ++ sep ++ stringsJoin (b :: more) sep

/-! ## `config.go` -/

/-- Function `setViperDefaults` loads the default configuration into the given Viper registry. -/
def setViperDefaults (w : World) (viper : Viper) : Viper :=
  let viper := viper.SetDefault "debug" (.bool false)
  let viper := viper.SetDefault "verbose" (.bool false)
  let viper := viper.SetDefault "audit" (.bool false)
  let viper := viper.SetDefault "scrape_enabled_label" (.str "prometheus.io/scrape")
  let viper := viper.SetDefault "require_scrape_enabled_label_for_nodes" (.bool true)
  let viper := viper.SetDefault "scrape_timeout" (.duration (5 * 1000000000))
  let viper := viper.SetDefault "scrape_duration" (.str "30s")
  let viper := viper.SetDefault "scrape_accept_header" (.str "text/plain;version=0.0.4;q=1,*/*;q=0.1")
  let viper := viper.SetDefault "emitter_harvest_period" (.str w.harvestPeriod)
  let viper := viper.SetDefault "min_emitter_harvest_period" (.str w.minReportInterval)
  let viper := viper.SetDefault "max_stored_metrics" (.str w.metricsCap)
  let viper := viper.SetDefault "auto_decorate" (.bool false)
  let viper := viper.SetDefault "insecure_skip_verify" (.bool false)
  let viper := viper.SetDefault "standalone" (.bool true)
  let viper := viper.SetDefault "disable_autodiscovery" (.bool false)
  let viper := viper.SetDefault "scrape_services" (.bool true)
  let viper := viper.SetDefault "scrape_endpoints" (.bool false)
  let viper := viper.SetDefault "percentiles" (.float64s [50, 95, 99])
  let viper := viper.SetDefault "worker_threads" (.int 4)
  let viper := viper.SetDefault "self_metrics_listening_address" (.str ":8080")
  viper.SetDefault "hot_load_config" (.bool false)

/-- How a run of `bindViperEnv` ends: the registry with the bindings made so far, and
whether the run stopped there in a panic of `v.Interface()`. -/
structure Bound where
  /-- The registry. -/
  viper : Viper
  /-- Whether `v.Interface()` panicked. -/
  panicked : Bool
  deriving Repr, DecidableEq

mutual
/-- One iteration of the loop of `bindViperEnv`, for the field `f`. The slice built by
`append(parts, tv)` is used at once, by `strings.Join` or by the recursive call, so
it is the list `parts` followed by `tv`. The argument `v.Interface()` of the recursive
call panics when the field is not exported. -/
def bindViperEnvField (vCfg : Viper) (parts : List String) : Field → Bound
  | .leaf none => { viper := vCfg, panicked := false }
  | .leaf (some tv) =>
    { viper := vCfg.BindEnv (stringsJoin (parts ++ [tv]) "_"), panicked := false }
  | .record none _ _ => { viper := vCfg, panicked := false }
  | .record (some tv) exported fields =>
    if exported then bindViperEnv vCfg fields (parts ++ [tv])
    else { viper := vCfg, panicked := true }
/-- Function `bindViperEnv` binds the variables of the given configuration struct (here: its
fields) to environment variables. A panic ends the loop. -/
def bindViperEnv (vCfg : Viper) : List Field → List String → Bound
  | [], _ => { viper := vCfg, panicked := false }
  | f :: more, parts =>
    let bound := bindViperEnvField vCfg parts f
    if bound.panicked then bound else bindViperEnv bound.viper more parts
end

/-- Function `setHotReload` sets Viper to watch config files for changes. -/
def setHotReload (viper : Viper) : Viper :=
  (viper.WatchConfig).OnConfigChange

/-- The change handler installed by `setHotReload`: reload the file into the registry;
an error is logged and the registry stays as it was. Returns the registry and the
lines logged at error level. -/
def onConfigChangeHandler (w : World) (viper : Viper) : Viper × List String :=
  match ReadInConfig w viper with
  | .error _ => (viper, ["Error reading config file after hot reloading:"])
  | .ok reloaded => (reloaded, [])

/-- Lines 37 to 53 of `loadConfig`: the registry on which `ReadInConfig` is called,
for the parsed arguments `c0`. Returns the arguments too, as line 41 may update
`ConfigPath`. -/
def configureViper (w : World) (c0 : ArgumentList) : ArgumentList × Viper :=
  let cfg := viperNew
  let cfg := cfg.SetConfigType "yaml"
  let c := if c0.Configfile ≠ "" ∧ c0.ConfigPath = "" then
      { c0 with ConfigPath := c0.Configfile } else c0
  let cfg := if c.ConfigPath ≠ "" then
      (cfg.AddConfigPath (w.filepathDir c.ConfigPath)).SetConfigName (w.filepathBase c.ConfigPath)
    else
      ((cfg.SetConfigName "config").AddConfigPath "/etc/nri-prometheus/").AddConfigPath "."
  (c, setViperDefaults w cfg)

/-- Lines 72 to 91 of `loadConfig`: what happens to the unmarshalled configuration
and to the registry before the configuration is returned. -/
def finishConfig (c : ArgumentList) (cfg : Viper) (scraperCfg : Config) : Config × Viper :=
  let scraperCfg := if scraperCfg.Emitters.length = 0 then
      if scraperCfg.Standalone then
        { scraperCfg with Emitters := scraperCfg.Emitters ++ ["telemetry"] }
      else
        { scraperCfg with Emitters := scraperCfg.Emitters ++ ["infra-sdk"] }
    else scraperCfg
  let scraperCfg := if scraperCfg.MetricAPIURL = "" then
      { scraperCfg with MetricAPIURL := determineMetricAPIURL scraperCfg.LicenseKey }
    else scraperCfg
  let cfg := if scraperCfg.HotReload then setHotReload cfg else cfg
  let scraperCfg := { scraperCfg with HostID := c.NriHostID }
  (scraperCfg, cfg)

/-- What `loadConfig` returns (`config` is `none` for a nil pointer, `err` is `none`
for a nil error) and the registry it leaves behind (`none` before `viper.New`). When
`bindViperEnv` panics, `loadConfig` returns nothing: `panicked` is set, and `config`
and `err` are both `none`. -/
structure Outcome where
  /-- The returned `*scraper.Config`. -/
  config : Option Config
  /-- The returned `error`. -/
  err : Option GoError
  /-- The registry `cfg`. -/
  viper : Option Viper
  /-- Whether the run ended in a panic instead of a return. -/
  panicked : Bool := false
  deriving Repr, DecidableEq

/-- Function `loadConfig`. The debug log line about `entity_definitions` has no effect on the
result and is left out. -/
def loadConfig (w : World) : Outcome :=
  match w.setupArgs with
  | .error err => { config := none, err := some err, viper := none }
  | .ok c0 =>
    let (c, cfg) := configureViper w c0
    match ReadInConfig w cfg with
    | .error err =>
      { config := none, err := some (errorsWrap err "could not read configuration"),
        viper := some cfg }
    | .ok cfg =>
      let bound := bindViperEnv cfg w.schema []
      if bound.panicked then
        { config := none, err := none, viper := some bound.viper, panicked := true }
      else
        let cfg := bound.viper
        match w.unmarshal cfg with
        | .error err =>
          { config := none, err := some (errorsWrap err "could not parse configuration file"),
            viper := some cfg }
        | .ok scraperCfg =>
          let (scraperCfg, cfg) := finishConfig c cfg scraperCfg
          { config := some scraperCfg, err := none, viper := some cfg }

/-- The running process after a successful `loadConfig`: the registry, which the
watcher of `setHotReload` holds, the configuration that `loadConfig` returned, and
the lines logged by the change handler. -/
structure Process where
  /-- The registry `cfg` of `loadConfig`. -/
  viper : Viper
  /-- The `scraper.Config` that the returned pointer designates. -/
  resolved : Config
  /-- Error lines logged by the change handler. -/
  logs : List String := []
  deriving Repr, DecidableEq

/-- A change of the watched file is processed, the collaborators now being `w`:
Viper's watcher reads the file again and then calls the installed handler. The
closure that `setHotReload` installs captures the registry `viper` and nothing else,
so neither step has access to the configuration that `loadConfig` returned. -/
def fileChanged (w : World) (p : Process) : Process :=
  if p.viper.watching then
    let reread := match ReadInConfig w p.viper with
      | .error _ => p.viper
      | .ok v => v
    if reread.onConfigChange then
      let (v, logged) := onConfigChangeHandler w reread
      { p with viper := v, logs := p.logs ++ logged }
    else
      { p with viper := reread }
  else p

/-- The process that a successful `loadConfig` starts: `none` when `loadConfig`
returned an error. -/
def processOf (o : Outcome) : Option Process :=
  match o.config, o.viper with
  | some scraperCfg, some cfg => some { viper := cfg, resolved := scraperCfg }
  | _, _ => none

/-! ## Vocabulary of the statements on `bindViperEnv` -/

mutual
/-- For the field `f` below enclosing records tagged `parents` (outermost first): each
leaf field in it, given as the tags on the way from the outermost record to the leaf,
the tag of the leaf last. -/
def leafTagPathsField (parents : List (Option String)) : Field → List (List (Option String))
  | .leaf tag => [parents ++ [tag]]
  | .record tag _ fields => leafTagPaths (parents ++ [tag]) fields
/-- The leaf fields of a list of fields, in declaration order. -/
def leafTagPaths (parents : List (Option String)) : List Field → List (List (Option String))
  | [] => []
  | f :: more => leafTagPathsField parents f ++ leafTagPaths parents more
end

/-- The names on a path when every field on it has one. -/
def allNames : List (Option String) → Option (List String)
  | [] => some []
  | none :: _ => none
  | some n :: more => (allNames more).map (fun names => n :: names)

/-- The environment key of a leaf: the names on its path joined with an underscore,
when the leaf and every record around it have a name. -/
def bindingOfPath (path : List (Option String)) : Option String :=
  (allNames path).map (fun names => stringsJoin names "_")

/-- Number of leaf fields that have a canonical name of their own. -/
def namedLeafCount (schema : List Field) : Nat :=
  ((leafTagPaths [] schema).filter (fun path => (path.getLast?.join).isSome)).length

/-! ## Sample collaborators, for the concrete instances below -/

/-- A boolean setting, the file taking precedence over the defaults. -/
def sampleBool (v : Viper) (key : String) : Bool :=
  match (v.config ++ v.defaults).lookup key with
  | some (.bool b) => b
  | _ => false

/-- A string setting, the file taking precedence over the defaults. -/
def sampleStr (v : Viper) (key : String) : String :=
  match (v.config ++ v.defaults).lookup key with
  | some (.str t) => t
  | _ => ""

/-- A decoder of the registry into the configuration. -/
def sampleUnmarshal (v : Viper) : Except GoError Config :=
  if sampleStr v "scrape_duration" = "" then
    .error (.base "1 error(s) decoding")
  else
    .ok { Emitters := if sampleStr v "emitters" = "" then [] else [sampleStr v "emitters"],
          Standalone := sampleBool v "standalone",
          MetricAPIURL := sampleStr v "metric_api_url",
          LicenseKey := sampleStr v "license_key",
          HotReload := sampleBool v "hot_load_config",
          HostID := sampleStr v "host_id" }

/-- A schema with a plain leaf, an untagged leaf, a nested record, and an unexported
record without a canonical name. -/
def sampleSchema : List Field :=
  [.leaf (some "standalone"), .leaf none,
    .record (some "scrape") true [.leaf (some "timeout"), .leaf none],
    .record none false [.record (some "inner") false [.leaf (some "b")]],
    .leaf (some "license_key")]

/-- A schema whose second field is an unexported record with a canonical name. -/
def unexportedSchema : List Field :=
  [.leaf (some "a"), .record (some "inner") false [.leaf (some "b")], .leaf (some "c")]

/-- A parser that knows four file texts. -/
def sampleParse (text : String) : Except GoError Settings :=
  if text = "hot_load_config: true" then
    .ok [("hot_load_config", .bool true)]
  else if text = "hot_load_config: true, standalone: false" then
    .ok [("hot_load_config", .bool true), ("standalone", .bool false)]
  else if text = "license_key: eu01xx00, host_id: from-file" then
    .ok [("license_key", .str "eu01xx00"), ("host_id", .str "from-file")]
  else if text = "scrape_duration: ''" then
    .ok [("scrape_duration", .str "")]
  else
    .error (.base "yaml: did not find expected key")

/-- Collaborators for given arguments and a given file system: `files` lists the
directory, the name and the text of each config file. -/
def sampleWorld (args : Except GoError ArgumentList)
    (files : List ((String × String) × String)) : World where
  setupArgs := args
  filepathDir := fun path => if path = "/opt/nri/prom.yml" then "/opt/nri" else "."
  filepathBase := fun path => if path = "/opt/nri/prom.yml" then "prom.yml" else path
  harvestPeriod := "1s"
  minReportInterval := "200ms"
  metricsCap := "10000"
  findFile := fun dir name _ => files.lookup (dir, name)
  parseConfig := sampleParse
  schema := sampleSchema
  schemaExported := rfl
  unmarshal := sampleUnmarshal

/-- The config file is in the system directory; the host id argument is `host-7`. -/
def worldSystemFile : World :=
  sampleWorld (.ok { NriHostID := "host-7" })
    [(("/etc/nri-prometheus/", "config"), "license_key: eu01xx00, host_id: from-file")]

/-- Both path arguments are set. -/
def worldBothPaths : World :=
  sampleWorld (.ok { ConfigPath := "/opt/nri/prom.yml", Configfile := "old.yml" })
    [(("/opt/nri", "prom.yml"), "hot_load_config: true")]

/-- No config file anywhere. -/
def worldNoFile : World :=
  sampleWorld (.ok {}) []

/-- The file sets an empty scrape duration, which the decoder rejects. -/
def worldBadDuration : World :=
  sampleWorld (.ok {}) [((".", "config"), "scrape_duration: ''")]

/-- Argument parsing fails. -/
def worldBadArgs : World :=
  sampleWorld (.error (.base "flag provided but not defined: -nope")) []

/-- Hot reload is enabled by the file in the current directory. -/
def worldHot : World :=
  sampleWorld (.ok {}) [((".", "config"), "hot_load_config: true")]

/-- The world of `worldHot` after the file is rewritten to set `standalone: false`. -/
def worldHotRewritten : World :=
  sampleWorld (.ok {}) [((".", "config"), "hot_load_config: true, standalone: false")]

/-! ## Lemmas on the region resolver -/

theorem not_lower_and_digit (c : Char) (h1 : isLowerAZ c = true) (h2 : isDigit09 c = true) :
    False := by
  simp only [isLowerAZ, isDigit09, inRange, Bool.and_eq_true, decide_eq_true_eq] at h1 h2
  have ha : ('a' : Char).toNat = 97 := by decide
  have h9 : ('9' : Char).toNat = 57 := by decide
  omega

theorem run_region_pos (pos : Nat) (rest : List Char) (h : pos ≠ 0) :
    regionLicenseRegex.run pos rest [] acceptMatch = none := by
  simp [regionLicenseRegex, Regex.run, h]

theorem searchFrom_region_pos (rest : List Char) :
    ∀ pos : Nat, pos ≠ 0 → searchFrom regionLicenseRegex pos rest = none := by
  induction rest with
  | nil => intro pos h; simp [searchFrom, run_region_pos pos [] h]
  | cons c tl ih =>
    intro pos h
    simp [searchFrom, run_region_pos pos (c :: tl) h, ih (pos + 1) (by omega)]

theorem sprintf_region (r : String) :
    fmtSprintf metricAPIRegionURL [r] =
      "https://metric-api." ++ r ++ ".newrelic.com/metric/v1/infra" := by
  rfl

theorem run_region_zero (l : List Char) :
    (regionLicenseRegex.run 0 l [] acceptMatch).map (fun res => groupText l res.2 1) =
      (regionOf l).map String.mk := by
  rcases l with _ | ⟨a, _ | ⟨b, _ | ⟨c, _ | ⟨d, _ | ⟨e, _ | ⟨f, _ | ⟨g, rest⟩⟩⟩⟩⟩⟩⟩ <;>
    simp [regionLicenseRegex, Regex.run, Regex.repeatRange, Regex.copies, Regex.nestedQuest,
      acceptMatch, regionOf, groupText, slice, isLowerAZ, isDigit09]
  all_goals
    have hcd : ¬ (inRange 'a' 'z' c = true ∧ inRange '0' '9' c = true) :=
      fun h => not_lower_and_digit c h.1 h.2
    generalize inRange 'a' 'z' a = la at *
    generalize inRange 'a' 'z' b = lb at *
    generalize inRange 'a' 'z' c = lc at *
    generalize inRange '0' '9' c = dc at *
    generalize inRange '0' '9' d = dd at *
    generalize inRange '0' '9' e = de at *
    by_cases hex : e = 'x' <;> cases la <;> cases lb <;> cases lc <;> cases dc <;>
      cases dd <;> cases de <;> simp [hex] at hcd ⊢ <;> split_ifs <;> simp <;>
      exact ⟨_, _, ⟨rfl, rfl⟩, by simp⟩

theorem searchFrom_region_zero (l : List Char) :
    searchFrom regionLicenseRegex 0 l =
      (regionLicenseRegex.run 0 l [] acceptMatch).map (fun res => (0, res.1, res.2)) := by
  cases l with
  | nil => simp only [searchFrom]; cases regionLicenseRegex.run 0 [] [] acceptMatch <;> rfl
  | cons c tl =>
    simp only [searchFrom]
    cases regionLicenseRegex.run 0 (c :: tl) [] acceptMatch with
    | none => simpa using searchFrom_region_pos tl 1 (by decide)
    | some res => rfl

theorem numSubexp_region : regionLicenseRegex.numSubexp = 1 := by decide

theorem determine_eq_regionOf (license : String) :
    determineMetricAPIURL license =
      match regionOf license.data with
      | some r => regionURL r
      | none => defaultMetricAPIURL := by
  have h := run_region_zero license.data
  unfold determineMetricAPIURL findStringSubmatch
  rw [searchFrom_region_zero, numSubexp_region]
  cases hrun : regionLicenseRegex.run 0 license.data [] acceptMatch with
  | none =>
    rw [hrun] at h
    cases hreg : regionOf license.data with
    | none => simp
    | some r => rw [hreg] at h; simp at h
  | some res =>
    rw [hrun] at h
    cases hreg : regionOf license.data with
    | none => rw [hreg] at h; simp at h
    | some r =>
      rw [hreg] at h
      simp only [Option.map_some', Option.some.injEq] at h
      simp [List.range_succ, h, sprintf_region, regionURL]

theorem digit_not_lower (c : Char) (h : isDigit09 c = true) : isLowerAZ c = false := by
  cases hl : isLowerAZ c with
  | false => rfl
  | true => exact (not_lower_and_digit c hl h).elim

theorem regionOf_of_starts (l r : List Char) (h : StartsWithRegion l r) :
    regionOf l = some r := by
  obtain ⟨hlen, hlow, d1, d2, rest, hd1, hd2, rfl⟩ := h
  rcases hlen with hlen | hlen
  · obtain ⟨a, b, rfl⟩ := List.length_eq_two.mp hlen
    have ha := hlow a (by simp)
    have hb := hlow b (by simp)
    simp [regionOf, ha, hb, hd1, hd2, digit_not_lower d1 hd1]
  · obtain ⟨a, b, c, rfl⟩ := List.length_eq_three.mp hlen
    have ha := hlow a (by simp)
    have hb := hlow b (by simp)
    have hc := hlow c (by simp)
    simp [regionOf, ha, hb, hc, hd1, hd2]

theorem starts_of_regionOf (l r : List Char) (h : regionOf l = some r) :
    StartsWithRegion l r := by
  rcases l with _ | ⟨a, _ | ⟨b, _ | ⟨c, _ | ⟨d, _ | ⟨e, rest⟩⟩⟩⟩⟩
  iterate 5 (simp [regionOf] at h)
  simp only [regionOf] at h
  split_ifs at h with hab hc hcde
  · rcases rest with _ | ⟨f, rest⟩
    · simp at h
    · simp only at h
      split_ifs at h with hdef
      simp only [Bool.and_eq_true, beq_iff_eq] at hab hdef
      obtain rfl := Option.some.inj h
      obtain ⟨⟨hd, he⟩, rfl⟩ := hdef
      exact ⟨Or.inr rfl, by simp [hab.1, hab.2, hc], d, e, rest, hd, he, rfl⟩
  · simp only [Bool.and_eq_true, beq_iff_eq] at hab hcde
    obtain rfl := Option.some.inj h
    obtain ⟨⟨hc9, hd⟩, rfl⟩ := hcde
    exact ⟨Or.inl rfl, by simp [hab.1, hab.2], c, d, rest, hc9, hd, rfl⟩

theorem regionURL_ne_default (r : List Char) : regionURL r ≠ defaultMetricAPIURL := by
  intro h
  have hlen := congrArg String.length h
  simp [regionURL, defaultMetricAPIURL, String.length] at hlen

theorem regionURL_injective (r r' : List Char) (h : regionURL r = regionURL r') : r = r' := by
  have hd := congrArg String.data h
  simpa [regionURL] using hd

theorem determine_of_starts (license : String) (r : List Char)
    (h : StartsWithRegion license.data r) : determineMetricAPIURL license = regionURL r := by
  rw [determine_eq_regionOf, regionOf_of_starts _ _ h]

theorem determine_cases (license : String) :
    (∃ r, StartsWithRegion license.data r ∧ determineMetricAPIURL license = regionURL r) ∨
      ((∀ r, ¬ StartsWithRegion license.data r) ∧
        determineMetricAPIURL license = defaultMetricAPIURL) := by
  rw [determine_eq_regionOf]
  cases hreg : regionOf license.data with
  | some r => exact Or.inl ⟨r, starts_of_regionOf _ _ hreg, rfl⟩
  | none =>
    refine Or.inr ⟨fun r hr => ?_, rfl⟩
    rw [regionOf_of_starts _ _ hr] at hreg
    exact absurd hreg (by simp)

theorem determine_default_of_no_region (license : String)
    (h : ∀ r, ¬ StartsWithRegion license.data r) :
    determineMetricAPIURL license = defaultMetricAPIURL := by
  rcases determine_cases license with ⟨r, hr, _⟩ | ⟨_, hd⟩
  · exact absurd hr (h r)
  · exact hd

theorem starts_unique (l r r' : List Char) (h : StartsWithRegion l r)
    (h' : StartsWithRegion l r') : r = r' := by
  have e1 := regionOf_of_starts _ _ h
  have e2 := regionOf_of_starts _ _ h'
  rw [e1] at e2
  exact Option.some.inj e2

/-! ## The claims on the region resolver -/

/-- C1, as amended: for every license that starts with two or three lowercase ASCII
letters `r`, then two ASCII digits, then the letter `x`, `determineMetricAPIURL`
returns the region URL whose region is exactly `r`. -/
theorem determineMetricAPIURL_region (r : List Char) (d1 d2 : Char) (rest : List Char)
    (hlen : r.length = 2 ∨ r.length = 3) (hlow : ∀ c ∈ r, isLowerAZ c = true)
    (hd1 : isDigit09 d1 = true) (hd2 : isDigit09 d2 = true) :
    determineMetricAPIURL (String.mk (r ++ d1 :: d2 :: 'x' :: rest)) =
      "https://metric-api." ++ String.mk r ++ ".newrelic.com/metric/v1/infra" :=
  determine_of_starts _ r ⟨hlen, hlow, d1, d2, rest, hd1, hd2, rfl⟩

/-- Witness of C1 as amended, at the license `eu01xx66c637a29c3982469a3fe8d1982d002c4a`. -/
theorem determineMetricAPIURL_region_witness :
    determineMetricAPIURL "eu01xx66c637a29c3982469a3fe8d1982d002c4a" =
      "https://metric-api.eu.newrelic.com/metric/v1/infra" :=
  determineMetricAPIURL_region ['e', 'u'] '0' '1' "x66c637a29c3982469a3fe8d1982d002c4a".data
    (Or.inl rfl) (by decide) (by decide) (by decide)

/-- C1 as stated fails: `eu01ab` starts with the two lowercase letters `eu`, the two
digits `01` and the two letters `ab`, and the default URL is returned for it, not
the URL of region `eu`. -/
theorem determineMetricAPIURL_letters_counterexample :
    (isLowerAZ 'e' = true ∧ isLowerAZ 'u' = true) ∧
      (isDigit09 '0' = true ∧ isDigit09 '1' = true) ∧
      (Char.isAlpha 'a' = true ∧ Char.isAlpha 'b' = true) ∧
      determineMetricAPIURL "eu01ab" = "https://metric-api.newrelic.com/metric/v1/infra" ∧
      determineMetricAPIURL "eu01ab" ≠ "https://metric-api.eu.newrelic.com/metric/v1/infra" := by
  decide

/-- C2: `determineMetricAPIURL` is total, and it returns the default URL for every
license that does not start with two or three lowercase letters, two digits and one
or two letters; in particular for every license shorter than 5 characters (the empty
one included) and for every license whose leading lowercase letters are not followed
by exactly two digits. -/
theorem determineMetricAPIURL_default (license : String) :
    ((¬ ∃ (r : List Char) (d1 d2 : Char) (t rest : List Char),
          (r.length = 2 ∨ r.length = 3) ∧ (∀ c ∈ r, isLowerAZ c = true) ∧
          isDigit09 d1 = true ∧ isDigit09 d2 = true ∧
          (t.length = 1 ∨ t.length = 2) ∧ (∀ c ∈ t, Char.isAlpha c = true) ∧
          license.data = r ++ d1 :: d2 :: (t ++ rest)) →
        determineMetricAPIURL license = "https://metric-api.newrelic.com/metric/v1/infra") ∧
      (license.length < 5 →
        determineMetricAPIURL license = "https://metric-api.newrelic.com/metric/v1/infra") ∧
      ((((license.data.dropWhile isLowerAZ).takeWhile isDigit09).length ≠ 2) →
        determineMetricAPIURL license = "https://metric-api.newrelic.com/metric/v1/infra") := by
  refine ⟨fun h => ?_, fun h => ?_, fun h => ?_⟩
  · refine determine_default_of_no_region license (fun r hr => h ?_)
    obtain ⟨hlen, hlow, d1, d2, rest, hd1, hd2, hl⟩ := hr
    exact ⟨r, d1, d2, ['x'], rest, hlen, hlow, hd1, hd2, Or.inl rfl, by decide, by simpa using hl⟩
  · refine determine_default_of_no_region license (fun r hr => ?_)
    obtain ⟨hlen, _, d1, d2, rest, _, _, hl⟩ := hr
    have hlen5 : license.data.length < 5 := h
    rw [hl] at hlen5
    simp at hlen5
    omega
  · refine determine_default_of_no_region license (fun r hr => h ?_)
    obtain ⟨hlen, hlow, d1, d2, rest, hd1, hd2, hl⟩ := hr
    have hx : isDigit09 'x' = false := by decide
    have hl1 := digit_not_lower d1 hd1
    rw [hl]
    rcases hlen with hlen | hlen
    · obtain ⟨a, b, rfl⟩ := List.length_eq_two.mp hlen
      have ha := hlow a (by simp)
      have hb := hlow b (by simp)
      simp [List.dropWhile, List.takeWhile, ha, hb, hl1, hd1, hd2, hx]
    · obtain ⟨a, b, c, rfl⟩ := List.length_eq_three.mp hlen
      have ha := hlow a (by simp)
      have hb := hlow b (by simp)
      have hc := hlow c (by simp)
      simp [List.dropWhile, List.takeWhile, ha, hb, hc, hl1, hd1, hd2, hx]

/-- Witness of C2: the empty license, which does not match the pattern; the
four-character license `eu01`; and the license `eu012x`, with three digits after its
lowercase letters. -/
theorem determineMetricAPIURL_default_witness :
    determineMetricAPIURL "" = "https://metric-api.newrelic.com/metric/v1/infra" ∧
      determineMetricAPIURL "eu01" = "https://metric-api.newrelic.com/metric/v1/infra" ∧
      determineMetricAPIURL "eu012x" = "https://metric-api.newrelic.com/metric/v1/infra" :=
  ⟨(determineMetricAPIURL_default "").1 (by
      rintro ⟨r, d1, d2, t, rest, _, _, _, _, _, _, h⟩
      have hlen := congrArg List.length h
      simp at hlen
      omega),
    (determineMetricAPIURL_default "eu01").2.1 (by decide),
    (determineMetricAPIURL_default "eu012x").2.2 (by decide)⟩

/-- C10: `determineMetricAPIURL` is a test on the start of the license. It returns the
URL of region `r` (two or three lowercase ASCII letters) exactly when the license
starts with `r`, two ASCII digits and the letter `x`; at most one `r` qualifies, so
what follows that start does not matter; the default URL is returned for every
other license. -/
theorem determineMetricAPIURL_characterised (license : String) :
    (∀ r : List Char, (r.length = 2 ∨ r.length = 3) → (∀ c ∈ r, isLowerAZ c = true) →
        (determineMetricAPIURL license =
            "https://metric-api." ++ String.mk r ++ ".newrelic.com/metric/v1/infra" ↔
          ∃ (d1 d2 : Char) (rest : List Char), isDigit09 d1 = true ∧ isDigit09 d2 = true ∧
            license.data = r ++ d1 :: d2 :: 'x' :: rest)) ∧
      (∀ (r r' : List Char) (d1 d2 e1 e2 : Char) (rest rest' : List Char),
        (r.length = 2 ∨ r.length = 3) → (∀ c ∈ r, isLowerAZ c = true) →
        isDigit09 d1 = true → isDigit09 d2 = true →
        (r'.length = 2 ∨ r'.length = 3) → (∀ c ∈ r', isLowerAZ c = true) →
        isDigit09 e1 = true → isDigit09 e2 = true →
        license.data = r ++ d1 :: d2 :: 'x' :: rest →
        license.data = r' ++ e1 :: e2 :: 'x' :: rest' → r = r') ∧
      ((¬ ∃ (r : List Char) (d1 d2 : Char) (rest : List Char),
          (r.length = 2 ∨ r.length = 3) ∧ (∀ c ∈ r, isLowerAZ c = true) ∧
          isDigit09 d1 = true ∧ isDigit09 d2 = true ∧
          license.data = r ++ d1 :: d2 :: 'x' :: rest) →
        determineMetricAPIURL license = "https://metric-api.newrelic.com/metric/v1/infra") := by
  refine ⟨fun r hlen hlow => ⟨fun h => ?_, fun h => ?_⟩, ?_, fun h => ?_⟩
  · rcases determine_cases license with ⟨r', hr', hd⟩ | ⟨_, hd⟩
    · rw [hd] at h
      obtain rfl := regionURL_injective _ _ h
      exact hr'.2.2
    · rw [hd] at h
      exact absurd h.symm (regionURL_ne_default r)
  · exact determine_of_starts license r ⟨hlen, hlow, h⟩
  · intro r r' d1 d2 e1 e2 rest rest' hlen hlow hd1 hd2 hlen' hlow' he1 he2 hl hl'
    exact starts_unique license.data r r' ⟨hlen, hlow, d1, d2, rest, hd1, hd2, hl⟩
      ⟨hlen', hlow', e1, e2, rest', he1, he2, hl'⟩
  · refine determine_default_of_no_region license (fun r hr => h ?_)
    obtain ⟨hlen, hlow, d1, d2, rest, hd1, hd2, hl⟩ := hr
    exact ⟨r, d1, d2, rest, hlen, hlow, hd1, hd2, hl⟩

/-- Witness of C10: the license `gov12xyz` starts with `gov`, `12` and `x`. -/
theorem determineMetricAPIURL_characterised_witness :
    determineMetricAPIURL "gov12xyz" = "https://metric-api.gov.newrelic.com/metric/v1/infra" :=
  ((determineMetricAPIURL_characterised "gov12xyz").1 ['g', 'o', 'v'] (Or.inr rfl)
    (by decide)).2 ⟨'1', '2', ['y', 'z'], by decide, by decide, rfl⟩

/-! ## Lemmas on `bindViperEnv` -/

theorem allNames_append_some (path : List (Option String)) (t : String) :
    allNames (path ++ [some t]) = (allNames path).map (fun names => names ++ [t]) := by
  induction path with
  | nil => rfl
  | cons o more ih =>
    cases o with
    | none => rfl
    | some n =>
      rw [List.cons_append]
      simp only [allNames]
      rw [ih]
      cases allNames more <;> rfl

theorem allNames_append_none (path more : List (Option String)) (h : allNames path = none) :
    allNames (path ++ more) = none := by
  induction path with
  | nil => simp [allNames] at h
  | cons o tl ih =>
    cases o with
    | none => rfl
    | some n =>
      simp only [allNames, Option.map_eq_none'] at h
      simp [allNames, ih h]

theorem allNames_snoc_none (path : List (Option String)) :
    allNames (path ++ [none]) = none := by
  induction path with
  | nil => rfl
  | cons o tl ih =>
    cases o with
    | none => rfl
    | some n => simp [allNames, ih]

mutual
theorem leafTagPathsField_unnamed (parents : List (Option String))
    (h : allNames parents = none) :
    ∀ f : Field, (leafTagPathsField parents f).filterMap bindingOfPath = []
  | .leaf tag => by
    simp [leafTagPathsField, bindingOfPath, allNames_append_none parents [tag] h]
  | .record tag _ fields => by
    simp only [leafTagPathsField]
    exact leafTagPaths_unnamed (parents ++ [tag]) (allNames_append_none parents [tag] h) fields
theorem leafTagPaths_unnamed (parents : List (Option String))
    (h : allNames parents = none) :
    ∀ fields : List Field, (leafTagPaths parents fields).filterMap bindingOfPath = []
  | [] => by simp [leafTagPaths]
  | f :: more => by
    simp [leafTagPaths, List.filterMap_append, leafTagPathsField_unnamed parents h f,
      leafTagPaths_unnamed parents h more]
end

mutual
theorem bindViperEnvField_eq (parents : List (Option String)) (parts : List String)
    (h : allNames parents = some parts) :
    ∀ (f : Field) (v : Viper), recordsExportedField f = true →
      bindViperEnvField v parts f =
        { viper := { v with env := v.env ++
            (leafTagPathsField parents f).filterMap bindingOfPath },
          panicked := false }
  | .leaf none, v, _ => by
    simp [bindViperEnvField, leafTagPathsField, bindingOfPath, allNames_snoc_none]
  | .leaf (some tv), v, _ => by
    simp [bindViperEnvField, leafTagPathsField, bindingOfPath, allNames_append_some, h,
      Viper.BindEnv]
  | .record none _ fields, v, _ => by
    simp [bindViperEnvField, leafTagPathsField,
      leafTagPaths_unnamed (parents ++ [none]) (allNames_snoc_none parents) fields]
  | .record (some tv) exported fields, v, hexp => by
    simp only [recordsExportedField, Bool.and_eq_true] at hexp
    simp only [bindViperEnvField, leafTagPathsField, hexp.1, if_true]
    exact bindViperEnv_eq (parents ++ [some tv]) (parts ++ [tv])
      (by simp [allNames_append_some, h]) fields v hexp.2
theorem bindViperEnv_eq (parents : List (Option String)) (parts : List String)
    (h : allNames parents = some parts) :
    ∀ (fields : List Field) (v : Viper), recordsExported fields = true →
      bindViperEnv v fields parts =
        { viper := { v with env := v.env ++
            (leafTagPaths parents fields).filterMap bindingOfPath },
          panicked := false }
  | [], v, _ => by simp [bindViperEnv, leafTagPaths]
  | f :: more, v, hexp => by
    simp only [recordsExported, Bool.and_eq_true] at hexp
    simp only [bindViperEnv, leafTagPaths, List.filterMap_append]
    rw [bindViperEnvField_eq parents parts h f v hexp.1]
    simp only [Bool.false_eq_true, if_false]
    rw [bindViperEnv_eq parents parts h more _ hexp.2]
    simp [List.append_assoc]
end

mutual
theorem bindViperEnvField_panicked :
    ∀ (f : Field) (v : Viper) (parts : List String),
      (bindViperEnvField v parts f).panicked = !recordsExportedField f
  | .leaf none, v, parts => by simp [bindViperEnvField, recordsExportedField]
  | .leaf (some tv), v, parts => by simp [bindViperEnvField, recordsExportedField]
  | .record none _ fields, v, parts => by simp [bindViperEnvField, recordsExportedField]
  | .record (some tv) exported fields, v, parts => by
    cases exported with
    | false => simp [bindViperEnvField, recordsExportedField]
    | true =>
      simp only [bindViperEnvField, recordsExportedField, if_true, Bool.true_and]
      exact bindViperEnv_panicked fields v (parts ++ [tv])
theorem bindViperEnv_panicked :
    ∀ (fields : List Field) (v : Viper) (parts : List String),
      (bindViperEnv v fields parts).panicked = !recordsExported fields
  | [], v, parts => by simp [bindViperEnv, recordsExported]
  | f :: more, v, parts => by
    have hf := bindViperEnvField_panicked f v parts
    simp only [bindViperEnv, recordsExported]
    cases hr : recordsExportedField f with
    | false =>
      rw [hr] at hf
      simp only [Bool.not_false] at hf
      simp [hf]
    | true =>
      rw [hr] at hf
      simp only [Bool.not_true] at hf
      simp only [hf, Bool.false_eq_true, if_false, Bool.true_and]
      exact bindViperEnv_panicked more _ parts
end

theorem bindViperEnv_unexported_record_panics :
    bindViperEnv viperNew unexportedSchema [] =
      { viper := { viperNew with env := ["a"] }, panicked := true } := by
  decide

/-! ## The claim on the environment binder -/

/-- C3, as amended: on a schema in which every record field that has a canonical name,
and is not inside a record lacking one, is an exported field, `bindViperEnv` started
with an empty path runs to its end and registers, in declaration order, exactly one
binding for each leaf field that has a canonical name and whose enclosing records all
have one, and none for any other field; the bound name is the enclosing records'
canonical names followed by the leaf's, joined with an underscore. Nothing else in the
registry changes. -/
theorem bindViperEnv_bindings (vCfg : Viper) (schema : List Field)
    (hexp : recordsExported schema = true) :
    bindViperEnv vCfg schema [] =
      { viper := { vCfg with env := vCfg.env ++
          (leafTagPaths [] schema).filterMap bindingOfPath },
        panicked := false } :=
  bindViperEnv_eq [] [] rfl schema vCfg hexp

/-- Witness of C3 as amended: the sample schema, whose only unexported records are inside
a record without a canonical name, gives three bindings. -/
theorem bindViperEnv_bindings_witness :
    recordsExported sampleSchema = true ∧
      bindViperEnv viperNew sampleSchema [] =
        { viper := { viperNew with env := ["standalone", "scrape_timeout", "license_key"] },
          panicked := false } :=
  ⟨rfl, bindViperEnv_bindings viperNew sampleSchema rfl⟩

/-- C3 as stated fails: in the schema made of one exported record without a canonical
name that holds one leaf with the canonical name `b`, one leaf field has a canonical
name, `bindViperEnv` runs to its end and no binding is registered. -/
theorem bindViperEnv_unnamed_record_counterexample :
    namedLeafCount [.record none true [.leaf (some "b")]] = 1 ∧
      bindViperEnv viperNew [.record none true [.leaf (some "b")]] [] =
        { viper := { viperNew with env := [] }, panicked := false } := by
  decide

/-! ## Lemmas on `loadConfig` -/

theorem loadConfig_of_args_error (w : World) (e : GoError) (hargs : w.setupArgs = .error e) :
    loadConfig w = { config := none, err := some e, viper := none } := by
  simp [loadConfig, hargs]

theorem loadConfig_of_read_error (w : World) (c0 : ArgumentList) (e : GoError)
    (hargs : w.setupArgs = .ok c0)
    (hread : ReadInConfig w (configureViper w c0).2 = .error e) :
    loadConfig w = { config := none, err := some (errorsWrap e "could not read configuration"),
                     viper := some (configureViper w c0).2 } := by
  simp [loadConfig, hargs, hread]

theorem loadConfig_of_unmarshal_error (w : World) (c0 : ArgumentList) (v : Viper) (e : GoError)
    (hargs : w.setupArgs = .ok c0)
    (hread : ReadInConfig w (configureViper w c0).2 = .ok v)
    (hun : w.unmarshal (bindViperEnv v w.schema []).viper = .error e) :
    loadConfig w =
      { config := none, err := some (errorsWrap e "could not parse configuration file"),
        viper := some (bindViperEnv v w.schema []).viper } := by
  have hp : (bindViperEnv v w.schema []).panicked = false := by
    rw [bindViperEnv_panicked, w.schemaExported]; rfl
  simp [loadConfig, hargs, hread, hp, hun]

theorem loadConfig_of_ok (w : World) (c0 : ArgumentList) (v : Viper) (cfg0 : Config)
    (hargs : w.setupArgs = .ok c0)
    (hread : ReadInConfig w (configureViper w c0).2 = .ok v)
    (hun : w.unmarshal (bindViperEnv v w.schema []).viper = .ok cfg0) :
    loadConfig w =
      { config :=
          some (finishConfig (configureViper w c0).1 (bindViperEnv v w.schema []).viper cfg0).1,
        err := none,
        viper :=
          some (finishConfig (configureViper w c0).1 (bindViperEnv v w.schema []).viper cfg0).2 } := by
  have hp : (bindViperEnv v w.schema []).panicked = false := by
    rw [bindViperEnv_panicked, w.schemaExported]; rfl
  simp [loadConfig, hargs, hread, hp, hun]

theorem loadConfig_not_panicked (w : World) : (loadConfig w).panicked = false := by
  cases hargs : w.setupArgs with
  | error e => rw [loadConfig_of_args_error w e hargs]
  | ok c0 =>
    cases hread : ReadInConfig w (configureViper w c0).2 with
    | error e => rw [loadConfig_of_read_error w c0 e hargs hread]
    | ok v =>
      cases hun : w.unmarshal (bindViperEnv v w.schema []).viper with
      | error e => rw [loadConfig_of_unmarshal_error w c0 v e hargs hread hun]
      | ok cfg0 => rw [loadConfig_of_ok w c0 v cfg0 hargs hread hun]

theorem finishConfig_emitters (c : ArgumentList) (cfg : Viper) (cfg0 : Config) :
    (finishConfig c cfg cfg0).1.Emitters =
      if cfg0.Emitters ≠ [] then cfg0.Emitters
      else if cfg0.Standalone = true then ["telemetry"] else ["infra-sdk"] := by
  unfold finishConfig
  by_cases he : cfg0.Emitters = []
  · by_cases hs : cfg0.Standalone = true <;> simp [he, hs] <;> split_ifs <;> simp [he]
  · have hl : cfg0.Emitters.length ≠ 0 := fun h => he (List.length_eq_zero.mp h)
    simp [he, hl]
    split_ifs <;> rfl

theorem finishConfig_metricAPIURL (c : ArgumentList) (cfg : Viper) (cfg0 : Config) :
    (finishConfig c cfg cfg0).1.MetricAPIURL =
      if cfg0.MetricAPIURL ≠ "" then cfg0.MetricAPIURL
      else determineMetricAPIURL cfg0.LicenseKey := by
  unfold finishConfig
  by_cases hu : cfg0.MetricAPIURL = "" <;> simp only [hu] <;> split_ifs <;> simp_all

theorem finishConfig_hostID (c : ArgumentList) (cfg : Viper) (cfg0 : Config) :
    (finishConfig c cfg cfg0).1.HostID = c.NriHostID := by
  simp [finishConfig]

theorem configureViper_hostID (w : World) (c0 : ArgumentList) :
    (configureViper w c0).1.NriHostID = c0.NriHostID := by
  unfold configureViper
  simp only
  split_ifs <;> rfl

theorem ReadInConfig_search (w : World) (v v' : Viper) (h : ReadInConfig w v = .ok v') :
    v'.configPaths = v.configPaths ∧ v'.configName = v.configName ∧
      v'.configType = v.configType := by
  unfold ReadInConfig at h
  split at h
  · exact absurd h (by simp)
  · split at h
    · exact absurd h (by simp)
    · simp only [Except.ok.injEq] at h
      subst h
      exact ⟨rfl, rfl, rfl⟩

theorem finishConfig_search (c : ArgumentList) (cfg : Viper) (cfg0 : Config) :
    (finishConfig c cfg cfg0).2.configPaths = cfg.configPaths ∧
      (finishConfig c cfg cfg0).2.configName = cfg.configName ∧
      (finishConfig c cfg cfg0).2.configType = cfg.configType := by
  unfold finishConfig
  simp only
  split_ifs <;> exact ⟨rfl, rfl, rfl⟩

theorem bindViperEnv_search (v : Viper) (schema : List Field)
    (hexp : recordsExported schema = true) :
    (bindViperEnv v schema []).viper.configPaths = v.configPaths ∧
      (bindViperEnv v schema []).viper.configName = v.configName ∧
      (bindViperEnv v schema []).viper.configType = v.configType := by
  rw [bindViperEnv_eq [] [] rfl schema v hexp]
  exact ⟨rfl, rfl, rfl⟩

theorem loadConfig_viper_search (w : World) (c0 : ArgumentList) (hargs : w.setupArgs = .ok c0) :
    ∃ v, (loadConfig w).viper = some v ∧
      v.configPaths = (configureViper w c0).2.configPaths ∧
      v.configName = (configureViper w c0).2.configName ∧
      v.configType = (configureViper w c0).2.configType := by
  cases hread : ReadInConfig w (configureViper w c0).2 with
  | error e =>
    rw [loadConfig_of_read_error w c0 e hargs hread]
    exact ⟨_, rfl, rfl, rfl, rfl⟩
  | ok v =>
    obtain ⟨r1, r2, r3⟩ := ReadInConfig_search w _ v hread
    obtain ⟨b1, b2, b3⟩ := bindViperEnv_search v w.schema w.schemaExported
    cases hun : w.unmarshal (bindViperEnv v w.schema []).viper with
    | error e =>
      rw [loadConfig_of_unmarshal_error w c0 v e hargs hread hun]
      exact ⟨_, rfl, b1.trans r1, b2.trans r2, b3.trans r3⟩
    | ok cfg0 =>
      rw [loadConfig_of_ok w c0 v cfg0 hargs hread hun]
      obtain ⟨f1, f2, f3⟩ :=
        finishConfig_search (configureViper w c0).1 (bindViperEnv v w.schema []).viper cfg0
      exact ⟨_, rfl, f1.trans (b1.trans r1), f2.trans (b2.trans r2), f3.trans (b3.trans r3)⟩

theorem configureViper_search (w : World) (c0 : ArgumentList) :
    (configureViper w c0).2.configType = "yaml" ∧
      (c0.ConfigPath ≠ "" →
        (configureViper w c0).2.configPaths = [w.filepathDir c0.ConfigPath] ∧
        (configureViper w c0).2.configName = w.filepathBase c0.ConfigPath) ∧
      (c0.ConfigPath = "" → c0.Configfile ≠ "" →
        (configureViper w c0).2.configPaths = [w.filepathDir c0.Configfile] ∧
        (configureViper w c0).2.configName = w.filepathBase c0.Configfile) ∧
      (c0.ConfigPath = "" → c0.Configfile = "" →
        (configureViper w c0).2.configPaths = ["/etc/nri-prometheus/", "."] ∧
        (configureViper w c0).2.configName = "config") := by
  refine ⟨?_, fun h => ?_, fun h h' => ?_, fun h h' => ?_⟩
  · unfold configureViper
    simp only
    split_ifs <;> rfl
  · simp [configureViper, h, setViperDefaults, Viper.SetDefault, Viper.AddConfigPath,
      Viper.SetConfigName, Viper.SetConfigType, viperNew]
  · simp [configureViper, h, h', setViperDefaults, Viper.SetDefault, Viper.AddConfigPath,
      Viper.SetConfigName, Viper.SetConfigType, viperNew]
  · simp [configureViper, h, h', setViperDefaults, Viper.SetDefault, Viper.AddConfigPath,
      Viper.SetConfigName, Viper.SetConfigType, viperNew]

theorem fileChanged_resolved (w : World) (p : Process) :
    (fileChanged w p).resolved = p.resolved := by
  unfold fileChanged
  by_cases hw : p.viper.watching = true
  · simp only [hw, if_true]
    split_ifs
    · cases onConfigChangeHandler w _
      rfl
    · rfl
  · simp [hw]

/-! ## The claims on `loadConfig` -/

/-- C4: when `Unmarshal` yields the configuration `cfg0`, `loadConfig` returns a
configuration whose emitter list is the list of `cfg0` unchanged if that list is not
empty, and otherwise exactly `telemetry` when standalone is true and exactly
`infra-sdk` when it is false. -/
theorem loadConfig_emitters (w : World) (c0 : ArgumentList) (v : Viper) (cfg0 : Config)
    (hargs : w.setupArgs = .ok c0)
    (hread : ReadInConfig w (configureViper w c0).2 = .ok v)
    (hun : w.unmarshal (bindViperEnv v w.schema []).viper = .ok cfg0) :
    ∃ cfg, (loadConfig w).config = some cfg ∧ (loadConfig w).err = none ∧
      cfg.Emitters =
        if cfg0.Emitters ≠ [] then cfg0.Emitters
        else if cfg0.Standalone = true then ["telemetry"] else ["infra-sdk"] := by
  rw [loadConfig_of_ok w c0 v cfg0 hargs hread hun]
  exact ⟨_, rfl, rfl, finishConfig_emitters _ _ _⟩

/-- Witness of C4: no emitter list in the file, standalone left at its default `true`. -/
theorem loadConfig_emitters_witness :
    ∃ cfg, (loadConfig (sampleWorld (.ok {})
          [(("/etc/nri-prometheus/", "config"), "hot_load_config: true")])).config = some cfg ∧
      (loadConfig (sampleWorld (.ok {})
          [(("/etc/nri-prometheus/", "config"), "hot_load_config: true")])).err = none ∧
      cfg.Emitters = ["telemetry"] :=
  loadConfig_emitters
    (sampleWorld (.ok {}) [(("/etc/nri-prometheus/", "config"), "hot_load_config: true")])
    {} _ _ rfl rfl rfl

/-- C5: when `Unmarshal` yields the configuration `cfg0`, the endpoint URL of the
configuration that `loadConfig` returns is the URL of `cfg0` whenever that URL is not
empty, whatever the license key, and is `determineMetricAPIURL` of the license key
when the URL of `cfg0` is empty. -/
theorem loadConfig_metricAPIURL (w : World) (c0 : ArgumentList) (v : Viper) (cfg0 : Config)
    (hargs : w.setupArgs = .ok c0)
    (hread : ReadInConfig w (configureViper w c0).2 = .ok v)
    (hun : w.unmarshal (bindViperEnv v w.schema []).viper = .ok cfg0) :
    ∃ cfg, (loadConfig w).config = some cfg ∧ (loadConfig w).err = none ∧
      cfg.MetricAPIURL =
        if cfg0.MetricAPIURL ≠ "" then cfg0.MetricAPIURL
        else determineMetricAPIURL cfg0.LicenseKey := by
  rw [loadConfig_of_ok w c0 v cfg0 hargs hread hun]
  exact ⟨_, rfl, rfl, finishConfig_metricAPIURL _ _ _⟩

/-- Witness of C5: no URL in the file, the license key `eu01xx00`. -/
theorem loadConfig_metricAPIURL_witness :
    ∃ cfg, (loadConfig worldSystemFile).config = some cfg ∧
      (loadConfig worldSystemFile).err = none ∧
      cfg.MetricAPIURL = "https://metric-api.eu.newrelic.com/metric/v1/infra" :=
  loadConfig_metricAPIURL worldSystemFile { NriHostID := "host-7" } _ _ rfl rfl rfl

/-- C9: on every successful run, the host id of the configuration that `loadConfig`
returns is the `NriHostID` argument, whatever host id `Unmarshal` produced. -/
theorem loadConfig_hostID (w : World) (c0 : ArgumentList) (v : Viper) (cfg0 : Config)
    (hargs : w.setupArgs = .ok c0)
    (hread : ReadInConfig w (configureViper w c0).2 = .ok v)
    (hun : w.unmarshal (bindViperEnv v w.schema []).viper = .ok cfg0) :
    ∃ cfg, (loadConfig w).config = some cfg ∧ (loadConfig w).err = none ∧
      cfg.HostID = c0.NriHostID := by
  rw [loadConfig_of_ok w c0 v cfg0 hargs hread hun]
  exact ⟨_, rfl, rfl, (finishConfig_hostID _ _ _).trans (configureViper_hostID w c0)⟩

/-- Witness of C9: the file gives the host id `from-file`, the argument is `host-7`. -/
theorem loadConfig_hostID_witness :
    ∃ cfg, (loadConfig worldSystemFile).config = some cfg ∧
      (loadConfig worldSystemFile).err = none ∧ cfg.HostID = "host-7" :=
  loadConfig_hostID worldSystemFile { NriHostID := "host-7" } _ _ rfl rfl rfl

/-- C7: once the arguments are parsed, the registry that `loadConfig` reads the file
with, and leaves behind, searches with `ConfigPath` when it is not empty (whether or
not `Configfile` is set), with `Configfile` when only `ConfigPath` is empty, in both
cases in the single directory `Dir(p)` for the name `Base(p)`; and with both empty it
searches the name `config` in `/etc/nri-prometheus/` first and `.` second. -/
theorem loadConfig_source (w : World) (c0 : ArgumentList) (hargs : w.setupArgs = .ok c0) :
    ∃ v, (loadConfig w).viper = some v ∧
      v.configPaths = (configureViper w c0).2.configPaths ∧
      v.configName = (configureViper w c0).2.configName ∧
      v.configType = "yaml" ∧
      (c0.ConfigPath ≠ "" →
        v.configPaths = [w.filepathDir c0.ConfigPath] ∧
        v.configName = w.filepathBase c0.ConfigPath) ∧
      (c0.ConfigPath = "" → c0.Configfile ≠ "" →
        v.configPaths = [w.filepathDir c0.Configfile] ∧
        v.configName = w.filepathBase c0.Configfile) ∧
      (c0.ConfigPath = "" → c0.Configfile = "" →
        v.configPaths = ["/etc/nri-prometheus/", "."] ∧ v.configName = "config") := by
  obtain ⟨v, hv, h1, h2, h3⟩ := loadConfig_viper_search w c0 hargs
  obtain ⟨k0, k1, k2, k3⟩ := configureViper_search w c0
  refine ⟨v, hv, h1, h2, h3.trans k0, fun h => ?_, fun h h' => ?_, fun h h' => ?_⟩
  · rw [h1, h2]; exact k1 h
  · rw [h1, h2]; exact k2 h h'
  · rw [h1, h2]; exact k3 h h'

/-- Witness of C7: with `ConfigPath` set to `/opt/nri/prom.yml` and `Configfile` set to
`old.yml`, the search is `prom.yml` in `/opt/nri`. -/
theorem loadConfig_source_witness :
    ∃ v, (loadConfig worldBothPaths).viper = some v ∧
      v.configPaths = ["/opt/nri"] ∧ v.configName = "prom.yml" := by
  obtain ⟨v, hv, _, _, _, h, _, _⟩ := loadConfig_source worldBothPaths
    { ConfigPath := "/opt/nri/prom.yml", Configfile := "old.yml" } rfl
  exact ⟨v, hv, h (by decide)⟩

/-- C8: `loadConfig` returns either a configuration and no error or an error and no
configuration. It returns an error exactly when argument parsing, reading the file or
unmarshalling fails: the error of argument parsing as it is, the error of reading
wrapped with `could not read configuration`, the error of unmarshalling wrapped with
`could not parse configuration file`. When no file is found in any searched
directory, the result is an error. -/
theorem loadConfig_result (w : World) :
    (((loadConfig w).config.isSome = true ∧ (loadConfig w).err = none) ∨
        ((loadConfig w).config = none ∧ (loadConfig w).err.isSome = true)) ∧
      (∀ e, w.setupArgs = .error e →
        (loadConfig w).config = none ∧ (loadConfig w).err = some e) ∧
      (∀ c0 e, w.setupArgs = .ok c0 → ReadInConfig w (configureViper w c0).2 = .error e →
        (loadConfig w).config = none ∧
        (loadConfig w).err = some (errorsWrap e "could not read configuration")) ∧
      (∀ c0 v e, w.setupArgs = .ok c0 → ReadInConfig w (configureViper w c0).2 = .ok v →
        w.unmarshal (bindViperEnv v w.schema []).viper = .error e →
        (loadConfig w).config = none ∧
        (loadConfig w).err = some (errorsWrap e "could not parse configuration file")) ∧
      (∀ c0 v cfg0, w.setupArgs = .ok c0 → ReadInConfig w (configureViper w c0).2 = .ok v →
        w.unmarshal (bindViperEnv v w.schema []).viper = .ok cfg0 →
        (loadConfig w).config.isSome = true ∧ (loadConfig w).err = none) ∧
      (∀ c0, w.setupArgs = .ok c0 →
        (∀ dir ∈ (configureViper w c0).2.configPaths,
          w.findFile dir (configureViper w c0).2.configName "yaml" = none) →
        (loadConfig w).config = none ∧
        (loadConfig w).err = some (errorsWrap
          (.configFileNotFound (configureViper w c0).2.configName
            (configureViper w c0).2.configPaths) "could not read configuration")) := by
  have hA : ∀ e, w.setupArgs = .error e →
      (loadConfig w).config = none ∧ (loadConfig w).err = some e := by
    intro e h
    rw [loadConfig_of_args_error w e h]
    exact ⟨rfl, rfl⟩
  have hR : ∀ c0 e, w.setupArgs = .ok c0 →
      ReadInConfig w (configureViper w c0).2 = .error e →
      (loadConfig w).config = none ∧
      (loadConfig w).err = some (errorsWrap e "could not read configuration") := by
    intro c0 e h h'
    rw [loadConfig_of_read_error w c0 e h h']
    exact ⟨rfl, rfl⟩
  have hU : ∀ c0 v e, w.setupArgs = .ok c0 →
      ReadInConfig w (configureViper w c0).2 = .ok v →
      w.unmarshal (bindViperEnv v w.schema []).viper = .error e →
      (loadConfig w).config = none ∧
      (loadConfig w).err = some (errorsWrap e "could not parse configuration file") := by
    intro c0 v e h h' h''
    rw [loadConfig_of_unmarshal_error w c0 v e h h' h'']
    exact ⟨rfl, rfl⟩
  have hO : ∀ c0 v cfg0, w.setupArgs = .ok c0 →
      ReadInConfig w (configureViper w c0).2 = .ok v →
      w.unmarshal (bindViperEnv v w.schema []).viper = .ok cfg0 →
      (loadConfig w).config.isSome = true ∧ (loadConfig w).err = none := by
    intro c0 v cfg0 h h' h''
    rw [loadConfig_of_ok w c0 v cfg0 h h' h'']
    exact ⟨rfl, rfl⟩
  refine ⟨?_, hA, hR, hU, hO, fun c0 h hmiss => ?_⟩
  · cases hargs : w.setupArgs with
    | error e => exact Or.inr ⟨(hA e hargs).1, by rw [(hA e hargs).2]; rfl⟩
    | ok c0 =>
      cases hread : ReadInConfig w (configureViper w c0).2 with
      | error e => exact Or.inr ⟨(hR c0 e hargs hread).1, by rw [(hR c0 e hargs hread).2]; rfl⟩
      | ok v =>
        cases hun : w.unmarshal (bindViperEnv v w.schema []).viper with
        | error e =>
          exact Or.inr ⟨(hU c0 v e hargs hread hun).1,
            by rw [(hU c0 v e hargs hread hun).2]; rfl⟩
        | ok cfg0 => exact Or.inl (hO c0 v cfg0 hargs hread hun)
  · refine hR c0 _ h ?_
    have htype : (configureViper w c0).2.configType = "yaml" := (configureViper_search w c0).1
    have hnone : (configureViper w c0).2.configPaths.findSome?
        (fun dir => w.findFile dir (configureViper w c0).2.configName
          (configureViper w c0).2.configType) = none := by
      rw [List.findSome?_eq_none_iff]
      intro dir hdir
      rw [htype]
      exact hmiss dir hdir
    unfold ReadInConfig
    rw [hnone]

/-- Witness of C8: no config file exists and the arguments give no path; argument
parsing fails; the file is read and does not decode. -/
theorem loadConfig_result_witness :
    ((loadConfig worldNoFile).config = none ∧
      (loadConfig worldNoFile).err = some (errorsWrap
        (.configFileNotFound "config" ["/etc/nri-prometheus/", "."])
        "could not read configuration")) ∧
    ((loadConfig worldBadArgs).config = none ∧
      (loadConfig worldBadArgs).err = some (.base "flag provided but not defined: -nope")) ∧
    ((loadConfig worldBadDuration).config = none ∧
      (loadConfig worldBadDuration).err = some (errorsWrap (.base "1 error(s) decoding")
        "could not parse configuration file")) :=
  ⟨(loadConfig_result worldNoFile).2.2.2.2.2 {} rfl (by decide),
    (loadConfig_result worldBadArgs).2.1 _ rfl,
    (loadConfig_result worldBadDuration).2.2.2.1 {} _ _ rfl rfl rfl⟩

/-- C6 fails on the code: processing a file change never writes the configuration
that `loadConfig` returned, whatever the file now holds. At a concrete run:
`loadConfig` succeeds on `worldHot` with hot reload enabled and the registry
watching; the file is then rewritten with `standalone: false` and the change is
processed without an error. The registry holds the new value, which `Unmarshal` would
decode as `false`, and the configuration that `loadConfig` returned still has
standalone `true` and the emitter list chosen for it. -/
theorem hot_reload_keeps_returned_config :
    (∀ (w : World) (p : Process), (fileChanged w p).resolved = p.resolved) ∧
      ((processOf (loadConfig worldHot)).map (fun p =>
        (p.resolved.HotReload, p.viper.watching, p.viper.onConfigChange,
          p.resolved.Standalone))) = some (true, true, true, true) ∧
      ((processOf (loadConfig worldHot)).map (fun p =>
        ((fileChanged worldHotRewritten p).viper.config.lookup "standalone",
          (worldHotRewritten.unmarshal (fileChanged worldHotRewritten p).viper).toOption.map
            (fun cfg => cfg.Standalone),
          (fileChanged worldHotRewritten p).logs))) =
        some (some (.bool false), some false, []) ∧
      ((processOf (loadConfig worldHot)).map (fun p =>
        ((fileChanged worldHotRewritten p).resolved.Standalone,
          (fileChanged worldHotRewritten p).resolved.Emitters))) =
        some (true, ["telemetry"]) :=
  ⟨fileChanged_resolved, by decide, by decide, by decide⟩

end NriPrometheus
